/-
Verification of the VCI directory auditor (src/vci-directory-auditor/src/index.ts).

The development shallowly embeds the auditor's pure data transformations:
  * `getDuplicates` (index.ts lines 144-154),
  * the per-issuer key-fetch result construction inside `fetchDirectory`
    (index.ts lines 106-141), with the network modelled as a function from
    JWK URLs to fetch outcomes,
  * `audit` (index.ts lines 158-201).

JavaScript semantics that matter here and are modelled explicitly:
  * `Array.prototype.filter` keeps the items for which the callback returns a
    truthy value; in `getDuplicates` the callback returns the item itself, so
    the empty string (falsy) is never kept;
  * `new Set(array)` holds the distinct values of `array`; only membership of
    the set is ever consulted (`has` / `delete`), so it is modelled as a
    duplicate-free list (`List.dedup`) and result order is not significant;
  * `keySet.keys` on a parsed object lacking a `keys` field yields
    `undefined`, modelled as `none : Option (List Key)`;
  * `iss.replace(/audit-\d/, 'audit')` replaces the leftmost occurrence of
    the pattern `audit-` followed by one decimal digit.
-/
import Mathlib

set_option autoImplicit false

/-- An issuer entry of the directory document (interface `TrustedIssuer`). -/
structure TrustedIssuer where
  iss : String
  name : String
deriving DecidableEq

/-- A JWK key.  The external `node-jose` type `JWK.Key` is opaque to the
auditor: the audited code reads only the `kid` field, so the embedding keeps
exactly that field. -/
structure Key where
  kid : String
deriving DecidableEq

/-- An issuer's snapshot entry as declared by interface `IssuerLogInfo`
(`keys : JWK.Key[]`, `errors?: string[]`).  This is the type `audit` consumes:
a directory log loaded from disk or built by a fetch whose key sets all
parsed as arrays. -/
structure IssuerLogInfo where
  issuer : TrustedIssuer
  keys : List Key
  errors : Option (List String)
deriving DecidableEq

/-- Interface `DirectoryLog`. -/
structure DirectoryLog where
  directory : String
  time : String
  issuerInfo : List IssuerLogInfo
deriving DecidableEq

/-- Interface `IssuerKids`, the derived view used during diffing. -/
structure IssuerKids where
  iss : String
  kids : List String
deriving DecidableEq

/-- Interface `AuditLog`.  TypeScript optional fields are `Option`s and are
`none` exactly when the source leaves them unset. -/
structure AuditLog where
  directory : String
  time : String
  issuerCount : Nat
  newIssuerCount : Option Nat
  deletedIssuerCount : Option Nat
  issuersWithErrors : List IssuerLogInfo
  duplicatedKids : List String
  duplicatedIss : List String
  duplicatedNames : List String
  removedKids : Option (List IssuerKids)
deriving DecidableEq

/-!  ### getDuplicates (index.ts lines 144-154)  -/

/-- The `array.filter(...)` pass of `getDuplicates`, with the JS `Set` state
threaded explicitly as a duplicate-free list.  An item found in the set is
deleted from it and dropped (the callback returns `undefined`); otherwise the
callback returns the item itself, which is kept exactly when it is truthy,
i.e. when it is not the empty string. -/
def dupFilter (set : List String) : List String → List String
  | [] => []
  | item :: rest =>
    if item ∈ set then dupFilter (set.erase item) rest
    else if item = "" then dupFilter set rest
    else item :: dupFilter set rest

/-- `getDuplicates` (index.ts lines 144-154): run the filter pass against
`new Set(array)`, then dedupe the kept items (`Array.from(new Set(...))`). -/
def getDuplicates (array : List String) : List String :=
  (dupFilter array.dedup array).dedup

/-!  ### fetchDirectory (index.ts lines 95-141)

The directory-level fetch either rejects (modelled outside the embedding: the
run aborts) or yields the issuer list; the per-issuer fetches are the logic
verified here.  The network is a function assigning to each JWK URL the
outcome of `got` + `JSON.parse`. -/

/-- Outcome of fetching and parsing one JWK URL (index.ts lines 113-121):
  * `networkError`: `got` threw (unreachable host, timeout, non-success
    status), or the dead-code `!response` guard; the thrown error stringifies
    to `err`;
  * `parseError`: `JSON.parse` threw on a malformed body;
  * `parsedFalsy`: `JSON.parse` succeeded but produced a falsy value
    (`null`, `0`, `""`, `false`), failing the `if (!keySet)` guard;
  * `parsedObj okeys`: `JSON.parse` produced a truthy value; `okeys` is its
    `keys` field, `none` when the field is absent (JS `undefined`). -/
inductive JwkFetchOutcome where
  | networkError (err : String)
  | parseError (err : String)
  | parsedFalsy
  | parsedObj (okeys : Option (List Key))
deriving DecidableEq

/-- An issuer's snapshot entry as actually produced at runtime by
`fetchDirectory`: `keys` is `none` when the JS value is `undefined` (the
unchecked `as KeySet` cast lets that through), and `errors` is the list the
`catch` branch pushed into. -/
structure FetchedIssuerLogInfo where
  issuer : TrustedIssuer
  keys : Option (List Key)
  errors : List String
deriving DecidableEq

/-- The directory log as produced at runtime by `fetchDirectory`. -/
structure FetchedDirectoryLog where
  directory : String
  time : String
  issuerInfo : List FetchedIssuerLogInfo
deriving DecidableEq

/-- `jwkURL` (index.ts line 107): `issuer.iss + '/.well-known/jwks.json'`. -/
def jwkURL (issuer : TrustedIssuer) : String :=
  issuer.iss ++ "/.well-known/jwks.json"

/-- The async arrow of index.ts lines 106-127 for one issuer: initialise the
entry with `keys = []`, `errors = []`; on a caught failure push the error
string (leaving `keys` at `some []`); on a truthy parsed object assign its
`keys` field verbatim, which is `undefined` (`none`) when absent. -/
def fetchIssuerLogInfo (fetchJwks : String → JwkFetchOutcome)
    (issuer : TrustedIssuer) : FetchedIssuerLogInfo :=
  match fetchJwks (jwkURL issuer) with
  | .networkError err => ⟨issuer, some [], [err]⟩
  | .parseError err => ⟨issuer, some [], [err]⟩
  | .parsedFalsy => ⟨issuer, some [], ["Failed to parse JSON KeySet schema"]⟩
  | .parsedObj okeys => ⟨issuer, okeys, []⟩

/-- `fetchDirectory` (index.ts lines 95-141) after the directory document was
retrieved and parsed: one entry per participating issuer.  `Promise.all`
resolves to the results in the order the promises were created, so the
concurrent fan-out is the map over `participating_issuers`. -/
def fetchDirectory (directoryUrl : String) (time : String)
    (issuers : List TrustedIssuer)
    (fetchJwks : String → JwkFetchOutcome) : FetchedDirectoryLog :=
  { directory := directoryUrl
    time := time
    issuerInfo := issuers.map fun issuer => fetchIssuerLogInfo fetchJwks issuer }

/-- The outcomes the spec calls per-issuer fetch failures: the `catch` branch
of index.ts lines 123-125 runs exactly for these. -/
def failingOutcome : JwkFetchOutcome → Bool
  | .networkError _ => true
  | .parseError _ => true
  | .parsedFalsy => true
  | .parsedObj _ => false

/-!  ### audit (index.ts lines 158-201)  -/

/-- Matcher for the regex `/audit-\d/` at the head of a character list:
`some tail` when the list starts with `audit-` followed by a decimal digit,
returning the characters after the match. -/
def auditDigitMatch : List Char → Option (List Char)
  | 'a' :: 'u' :: 'd' :: 'i' :: 't' :: '-' :: d :: tail =>
    if d.isDigit then some tail else none
  | _ => none

/-- `String.prototype.replace` with the non-global regex `/audit-\d/`:
replace the leftmost match with `audit`, leave the rest verbatim. -/
def replaceAuditAux : List Char → List Char
  | [] => []
  | c :: rest =>
    match auditDigitMatch (c :: rest) with
    | some tail => 'a' :: 'u' :: 'd' :: 'i' :: 't' :: tail
    | none => c :: replaceAuditAux rest

/-- `iss.replace(/audit-\d/, 'audit')` (index.ts line 161). -/
def replaceAuditDigit (s : String) : String :=
  String.mk (replaceAuditAux s.data)

/-- `getIssuerUrl` (index.ts line 161): normalise only in test mode. -/
def getIssuerUrl (isTest : Bool) (iss : String) : String :=
  if isTest then replaceAuditDigit iss else iss

/-- `getIssuers` (index.ts line 163). -/
def getIssuers (isTest : Bool) (dir : DirectoryLog) : List String :=
  dir.issuerInfo.map fun info => getIssuerUrl isTest info.issuer.iss

/-- `getIssuerKids` (index.ts line 179). -/
def getIssuerKids (isTest : Bool) (dir : DirectoryLog) : List IssuerKids :=
  dir.issuerInfo.map fun info =>
    ⟨getIssuerUrl isTest info.issuer.iss, info.keys.map Key.kid⟩

/-- The `reduce` of index.ts lines 177-178: count the members of `xs` that
`ys` does not include. -/
def countNotIn (xs ys : List String) : Nat :=
  xs.foldl (fun acc cur => acc + if ys.contains cur then 0 else 1) 0

/-- One iteration of the nested `forEach` of index.ts lines 183-196: compare
a previous entry with a current entry; when the identifiers match and some of
the previous kids are missing from the current kids, produce the
`removedKids` entry pushed by line 193. -/
def removedPair (pik cik : IssuerKids) : Option IssuerKids :=
  if pik.iss = cik.iss then
    let rk := pik.kids.filter fun kid => !(cik.kids.contains kid)
    if 0 < rk.length then some ⟨pik.iss, rk⟩ else none
  else none

/-- The nested `forEach` of index.ts lines 183-197: previous entries outermost,
current entries innermost, pushes in iteration order. -/
def computeRemovedKids (previousIssKids currentIssKids : List IssuerKids) :
    List IssuerKids :=
  previousIssKids.flatMap fun pik =>
    currentIssKids.filterMap fun cik => removedPair pik cik

/-- `audit` (index.ts lines 158-201). -/
def audit (isTest : Bool) (currentLog : DirectoryLog)
    (previousLog : Option DirectoryLog) : AuditLog :=
  let currentIss := getIssuers isTest currentLog
  let base : AuditLog :=
    { directory := currentLog.directory
      time := currentLog.time
      issuerCount := currentLog.issuerInfo.length
      newIssuerCount := none
      deletedIssuerCount := none
      issuersWithErrors := currentLog.issuerInfo.filter fun info =>
        match info.errors with
        | some es => decide (0 < es.length)
        | none => false
      duplicatedKids :=
        getDuplicates (currentLog.issuerInfo.flatMap fun info =>
          info.keys.map Key.kid)
      duplicatedIss := getDuplicates currentIss
      duplicatedNames :=
        getDuplicates (currentLog.issuerInfo.map fun info => info.issuer.name)
      removedKids := none }
  match previousLog with
  | none => base
  | some prev =>
    let previousIss := getIssuers isTest prev
    { base with
      newIssuerCount := some (countNotIn currentIss previousIss)
      deletedIssuerCount := some (countNotIn previousIss currentIss)
      removedKids := some (computeRemovedKids (getIssuerKids isTest prev)
        (getIssuerKids isTest currentLog)) }

/-!  ### Concrete snapshots used as test vectors  -/

/-- A two-issuer directory log whose issuers share the identifier `"A"` but
hold different keys; a self-diff on it reports removed kids. -/
def dupIssLog : DirectoryLog :=
  ⟨"d", "t", [⟨⟨"A", "n1"⟩, [⟨"k1"⟩], some []⟩, ⟨⟨"A", "n2"⟩, [⟨"k2"⟩], some []⟩]⟩

/-- A one-issuer directory log with distinct issuer identifiers. -/
def simpleLog : DirectoryLog :=
  ⟨"d", "t", [⟨⟨"A", "n"⟩, [⟨"k1"⟩], some []⟩]⟩

/-- Previous log of the removed-kid scenario: issuer `"A"` with kids
`["k1", "k2"]`. -/
def remPrevLog : DirectoryLog :=
  ⟨"d", "t", [⟨⟨"A", "n"⟩, [⟨"k1"⟩, ⟨"k2"⟩], some []⟩]⟩

/-- Current log of the removed-kid scenario: issuer `"A"` with kids
`["k1"]`. -/
def remCurLog : DirectoryLog :=
  ⟨"d", "t", [⟨⟨"A", "n"⟩, [⟨"k1"⟩], some []⟩]⟩

/-- Previous log of the duplicated-identifier scenario: `"A"` twice, each
entry holding kid `"k1"`. -/
def pairPrevLog : DirectoryLog :=
  ⟨"d", "t", [⟨⟨"A", "n1"⟩, [⟨"k1"⟩], some []⟩, ⟨⟨"A", "n2"⟩, [⟨"k1"⟩], some []⟩]⟩

/-- Current log of the duplicated-identifier scenario: `"A"` twice with no
keys. -/
def pairCurLog : DirectoryLog :=
  ⟨"d", "t", [⟨⟨"A", "n1"⟩, [], some []⟩, ⟨⟨"A", "n2"⟩, [], some []⟩]⟩

/-- Current log of the new/deleted-count scenario: issuers `"A"`, `"B"`. -/
def cntCurLog : DirectoryLog :=
  ⟨"d", "t", [⟨⟨"A", "n"⟩, [], some []⟩, ⟨⟨"B", "n"⟩, [], some []⟩]⟩

/-- Previous log of the new/deleted-count scenario: issuers `"A"`, `"C"`. -/
def cntPrevLog : DirectoryLog :=
  ⟨"d", "t", [⟨⟨"A", "n"⟩, [], some []⟩, ⟨⟨"C", "n"⟩, [], some []⟩]⟩

/-- Two issuers used by the fetch-isolation test vector. -/
def issuerA : TrustedIssuer := ⟨"https://a.example", "A"⟩

/-- Second issuer of the fetch-isolation test vector. -/
def issuerB : TrustedIssuer := ⟨"https://b.example", "B"⟩

/-- A network where every JWK URL answers with an empty key set. -/
def netOk : String → JwkFetchOutcome := fun _ => .parsedObj (some [])

/-- A network like `netOk` except that issuer B's JWK URL times out. -/
def netBFails : String → JwkFetchOutcome := fun u =>
  if u = jwkURL issuerB then .networkError "RequestError: Timeout" else .parsedObj (some [])

/-!  ### Helper lemmas  -/

/-- Membership in the filter pass of `getDuplicates`, for a duplicate-free
set state: a value is kept iff it is truthy (non-empty) and either it is in
the set and occurs at least twice in the remaining input, or it has already
been deleted from the set and occurs at least once more. -/
theorem mem_dupFilter (v : String) (l : List String) :
    ∀ s : List String, s.Nodup →
      (v ∈ dupFilter s l ↔
        v ≠ "" ∧ ((v ∈ s ∧ 2 ≤ l.count v) ∨ (v ∉ s ∧ 1 ≤ l.count v))) := by
  induction l with
  | nil => intro s _; simp [dupFilter]
  | cons item rest ih =>
    intro s hs
    by_cases him : item ∈ s
    · rw [show dupFilter s (item :: rest) = dupFilter (s.erase item) rest from by
        simp [dupFilter, him]]
      rw [ih (s.erase item) (hs.erase item)]
      by_cases hv : v = item
      · subst hv
        have hne : v ∉ s.erase v := by simp [hs.mem_erase_iff]
        rw [List.count_cons_self]
        constructor
        · rintro ⟨h1, ⟨hm, hc⟩ | ⟨hm, hc⟩⟩
          · exact absurd hm hne
          · exact ⟨h1, Or.inl ⟨him, by omega⟩⟩
        · rintro ⟨h1, ⟨hm, hc⟩ | ⟨hm, hc⟩⟩
          · exact ⟨h1, Or.inr ⟨hne, by omega⟩⟩
          · exact absurd him hm
      · have hmem : v ∈ s.erase item ↔ v ∈ s := by
          rw [hs.mem_erase_iff]; simp [hv]
        have hcnt : (item :: rest).count v = rest.count v := by
          simp [List.count_cons, hv]
        rw [hmem, hcnt]
    · by_cases hitem : item = ""
      · subst hitem
        rw [show dupFilter s ("" :: rest) = dupFilter s rest from by
          simp [dupFilter, him]]
        rw [ih s hs]
        by_cases hv : v = ""
        · simp [hv]
        · have hcnt : ("" :: rest).count v = rest.count v := by
            simp [List.count_cons, hv]
          rw [hcnt]
      · rw [show dupFilter s (item :: rest) = item :: dupFilter s rest from by
          simp [dupFilter, him, hitem]]
        by_cases hv : v = item
        · subst hv
          simp only [List.mem_cons, true_or, true_iff]
          refine ⟨hitem, Or.inr ⟨him, ?_⟩⟩
          simp [List.count_cons_self]
        · have hcnt : (item :: rest).count v = rest.count v := by
            simp [List.count_cons, hv]
          simp only [List.mem_cons, hv, false_or]
          rw [ih s hs, hcnt]

/-!  ### C1: getDuplicates as a set  -/

/-- C1 (as stated, refuted): `getDuplicates` does NOT report every value
occurring at least twice — the callback of the internal `filter` returns the
item itself, so a duplicated empty string is falsy and silently dropped.  At
`items = ["", ""]` the empty string occurs twice yet is absent from the
result. -/
theorem getDuplicates_claim_cex :
    ¬ ("" ∈ getDuplicates ["", ""] ↔ 2 ≤ (["", ""] : List String).count "") := by
  decide

/-- C1 (amended): `getDuplicates items`, viewed as a set, equals
`{ v | count(items, v) >= 2 }` restricted to non-empty strings: it contains
exactly the values other than `""` occurring at least twice in `items`
(case-sensitive equality), each reported exactly once (the result has no
duplicates), and it is empty on empty input.  A duplicated empty string is
never reported. -/
theorem getDuplicates_set_spec :
    getDuplicates [] = [] ∧
    ∀ items : List String, (getDuplicates items).Nodup ∧
      ∀ v : String, v ∈ getDuplicates items ↔ 2 ≤ items.count v ∧ v ≠ "" := by
  refine ⟨rfl, fun items => ⟨List.nodup_dedup _, fun v => ?_⟩⟩
  rw [getDuplicates, List.mem_dedup,
    mem_dupFilter v items items.dedup (List.nodup_dedup items)]
  constructor
  · rintro ⟨h1, ⟨hm, hc⟩ | ⟨hm, hc⟩⟩
    · exact ⟨hc, h1⟩
    · rw [List.mem_dedup] at hm
      exact absurd (List.count_pos_iff.mp (by omega)) hm
  · rintro ⟨hc, h1⟩
    have hm : v ∈ items := List.count_pos_iff.mp (by omega)
    exact ⟨h1, Or.inl ⟨by rwa [List.mem_dedup], hc⟩⟩

/-!  ### C8 / C10: test-mode issuer normalization  -/

/-- When the head of the list does not start a match of `/audit-\d/`, the
replacement keeps the head and continues on the tail. -/
theorem replaceAuditAux_cons_none {c : Char} {rest : List Char}
    (h : auditDigitMatch (c :: rest) = none) :
    replaceAuditAux (c :: rest) = c :: replaceAuditAux rest := by
  simp [replaceAuditAux, h]

/-- The replacement leaves an unmatched region verbatim: when no match of
`/audit-\d/` starts at any position inside `pre`, the replacement of
`pre ++ rest` is `pre` followed by the replacement of `rest`. -/
theorem replaceAuditAux_append_of_no_match (pre : List Char) :
    ∀ rest : List Char,
      (∀ n, n < pre.length → auditDigitMatch ((pre ++ rest).drop n) = none) →
      replaceAuditAux (pre ++ rest) = pre ++ replaceAuditAux rest := by
  induction pre with
  | nil => intro rest _; simp
  | cons c pre ih =>
    intro rest h
    have h0 := h 0 (by simp)
    simp only [List.drop_zero, List.cons_append] at h0
    have htail : ∀ n, n < pre.length → auditDigitMatch ((pre ++ rest).drop n) = none := by
      intro n hn
      have hh := h (n + 1) (by simpa using Nat.succ_lt_succ hn)
      simpa [List.drop_succ_cons] using hh
    rw [List.cons_append, replaceAuditAux_cons_none h0, ih rest htail,
      List.cons_append]

/-- A match of `/audit-\d/` at the head of the list is replaced by `audit`,
and the characters after the matched digit are left verbatim. -/
theorem replaceAuditAux_match_head {d : Char} (hd : d.isDigit = true)
    (post : List Char) :
    replaceAuditAux ('a' :: 'u' :: 'd' :: 'i' :: 't' :: '-' :: d :: post) =
      'a' :: 'u' :: 'd' :: 'i' :: 't' :: post := by
  simp [replaceAuditAux, auditDigitMatch, hd]

/-- C8: in test mode, an issuer identifier containing the literal segment
`audit-` followed by a single decimal digit has that matched segment (the
leftmost one: no match starts inside `pre`) replaced with `audit` before
being used as a comparison key, so `"https://x/audit-1"` and
`"https://x/audit-2"` both normalize to `"https://x/audit"`; with
`isTest = false` identifiers are compared verbatim. -/
theorem getIssuerUrl_testMode_normalization :
    (∀ iss : String, getIssuerUrl false iss = iss) ∧
    (∀ (pre post : List Char) (d : Char), d.isDigit = true →
      (∀ n, n < pre.length →
        auditDigitMatch
          ((pre ++ 'a' :: 'u' :: 'd' :: 'i' :: 't' :: '-' :: d :: post).drop n) =
          none) →
      getIssuerUrl true
          (String.mk (pre ++ 'a' :: 'u' :: 'd' :: 'i' :: 't' :: '-' :: d :: post)) =
        String.mk (pre ++ 'a' :: 'u' :: 'd' :: 'i' :: 't' :: post)) ∧
    getIssuerUrl true "https://x/audit-1" = "https://x/audit" ∧
    getIssuerUrl true "https://x/audit-2" = "https://x/audit" := by
  refine ⟨fun iss => rfl, fun pre post d hd h => ?_, by decide, by decide⟩
  show replaceAuditDigit _ = _
  rw [replaceAuditDigit]
  rw [show (String.mk (pre ++ 'a' :: 'u' :: 'd' :: 'i' :: 't' :: '-' :: d :: post)).data =
    pre ++ 'a' :: 'u' :: 'd' :: 'i' :: 't' :: '-' :: d :: post from rfl]
  rw [replaceAuditAux_append_of_no_match pre _ h, replaceAuditAux_match_head hd]

/-- C8 witness: the normalization theorem applied at `pre = []`, digit `'3'`,
`post = []` turns `"audit-3"` into `"audit"`. -/
theorem getIssuerUrl_testMode_normalization_witness :
    getIssuerUrl true "audit-3" = "audit" := by
  have h := getIssuerUrl_testMode_normalization.2.1 [] [] '3' (by decide)
    (fun n hn => by simp at hn)
  simpa using h

/-- C10: in test mode, when the identifier contains two (or more) occurrences
of `audit-` followed by a digit, only the leftmost occurrence is replaced
(the regex is not global): the second occurrence survives verbatim in the
comparison key, as in `"https://x/audit-1/audit-2" ↦ "https://x/audit/audit-2"`. -/
theorem getIssuerUrl_testMode_only_first_occurrence :
    (∀ (pre mid post : List Char) (d e : Char), d.isDigit = true →
      e.isDigit = true →
      (∀ n, n < pre.length →
        auditDigitMatch
          ((pre ++ 'a' :: 'u' :: 'd' :: 'i' :: 't' :: '-' :: d ::
            (mid ++ 'a' :: 'u' :: 'd' :: 'i' :: 't' :: '-' :: e :: post)).drop n) =
          none) →
      getIssuerUrl true
          (String.mk (pre ++ 'a' :: 'u' :: 'd' :: 'i' :: 't' :: '-' :: d ::
            (mid ++ 'a' :: 'u' :: 'd' :: 'i' :: 't' :: '-' :: e :: post))) =
        String.mk (pre ++ 'a' :: 'u' :: 'd' :: 'i' :: 't' ::
          (mid ++ 'a' :: 'u' :: 'd' :: 'i' :: 't' :: '-' :: e :: post))) ∧
    getIssuerUrl true "https://x/audit-1/audit-2" = "https://x/audit/audit-2" := by
  refine ⟨fun pre mid post d e hd he h => ?_, by decide⟩
  show replaceAuditDigit _ = _
  rw [replaceAuditDigit]
  rw [show (String.mk (pre ++ 'a' :: 'u' :: 'd' :: 'i' :: 't' :: '-' :: d ::
      (mid ++ 'a' :: 'u' :: 'd' :: 'i' :: 't' :: '-' :: e :: post))).data =
    pre ++ 'a' :: 'u' :: 'd' :: 'i' :: 't' :: '-' :: d ::
      (mid ++ 'a' :: 'u' :: 'd' :: 'i' :: 't' :: '-' :: e :: post) from rfl]
  rw [replaceAuditAux_append_of_no_match pre _ h, replaceAuditAux_match_head hd]

/-- C10 witness: only the first of the two occurrences in `"audit-1/audit-2"`
is normalized. -/
theorem getIssuerUrl_testMode_only_first_occurrence_witness :
    getIssuerUrl true "audit-1/audit-2" = "audit/audit-2" := by
  have h := getIssuerUrl_testMode_only_first_occurrence.1 [] ['/'] [] '1' '2'
    (by decide) (by decide) (fun n hn => by simp at hn)
  simpa using h

/-!  ### C2 / C4 / C5: fetchDirectory  -/

/-- Every per-issuer outcome keeps the issuer of the entry: the entry built
by the async arrow always carries the issuer it was created for. -/
theorem issuer_fetchIssuerLogInfo (f : String → JwkFetchOutcome)
    (i : TrustedIssuer) : (fetchIssuerLogInfo f i).issuer = i := by
  cases h : f (jwkURL i) <;> simp [fetchIssuerLogInfo, h]

/-- C4: for every directory document, the snapshot has exactly one entry per
issuer of the source directory, carrying that issuer, in the same order
(`Promise.all` resolves positionally, so the result is the map over the
source order regardless of completion order of the individual fetches). -/
theorem fetchDirectory_one_entry_per_issuer_in_order (url time : String)
    (issuers : List TrustedIssuer) (fetchJwks : String → JwkFetchOutcome) :
    (fetchDirectory url time issuers fetchJwks).issuerInfo.length =
      issuers.length ∧
    (fetchDirectory url time issuers fetchJwks).issuerInfo.map
      FetchedIssuerLogInfo.issuer = issuers := by
  constructor
  · simp [fetchDirectory]
  · have hcomp : (FetchedIssuerLogInfo.issuer ∘
        fun i => fetchIssuerLogInfo fetchJwks i) = id := by
      funext i
      exact issuer_fetchIssuerLogInfo fetchJwks i
    simp only [fetchDirectory, List.map_map]
    rw [hcomp, List.map_id]

/-- C2: a single issuer's failing key fetch (network error, non-success
response, unparseable body) is isolated: the snapshot still has one entry per
issuer, the failing issuer's entry has `keys = []` and a non-empty error
list, and every issuer with a different JWK URL gets exactly the entry it
would get on a network where the failure did not occur. -/
theorem fetchDirectory_isolates_failure (url time : String)
    (issuers : List TrustedIssuer) (f g : String → JwkFetchOutcome)
    (j : TrustedIssuer)
    (hagree : ∀ u : String, u ≠ jwkURL j → f u = g u)
    (hfail : failingOutcome (g (jwkURL j)) = true) :
    (fetchDirectory url time issuers g).issuerInfo.length = issuers.length ∧
    ∀ (k : Nat) (i : TrustedIssuer), issuers[k]? = some i →
      (i = j → ∃ e : List String,
        (fetchDirectory url time issuers g).issuerInfo[k]? =
          some ⟨j, some [], e⟩ ∧ e ≠ []) ∧
      (jwkURL i ≠ jwkURL j →
        (fetchDirectory url time issuers g).issuerInfo[k]? =
          (fetchDirectory url time issuers f).issuerInfo[k]?) := by
  refine ⟨by simp [fetchDirectory], fun k i hk => ⟨fun hij => ?_, fun hne => ?_⟩⟩
  · subst hij
    have hent : (fetchDirectory url time issuers g).issuerInfo[k]? =
        some (fetchIssuerLogInfo g i) := by
      simp [fetchDirectory, List.getElem?_map, hk]
    cases hout : g (jwkURL i) with
    | networkError err =>
      exact ⟨[err], by rw [hent]; simp [fetchIssuerLogInfo, hout], by simp⟩
    | parseError err =>
      exact ⟨[err], by rw [hent]; simp [fetchIssuerLogInfo, hout], by simp⟩
    | parsedFalsy =>
      exact ⟨["Failed to parse JSON KeySet schema"],
        by rw [hent]; simp [fetchIssuerLogInfo, hout], by simp⟩
    | parsedObj okeys =>
      rw [hout] at hfail
      exact absurd hfail (by simp [failingOutcome])
  · have hfi : f (jwkURL i) = g (jwkURL i) := hagree _ hne
    simp [fetchDirectory, List.getElem?_map, hk, fetchIssuerLogInfo, hfi]

/-- C2 witness: with issuer B's JWK URL timing out and everything else an
empty key set, the two-issuer snapshot keeps both entries, B's entry has
empty keys with a recorded error, and A's entry equals its all-success
counterpart. -/
theorem fetchDirectory_isolates_failure_witness :
    (fetchDirectory "d" "t" [issuerA, issuerB] netBFails).issuerInfo.length = 2 ∧
    (∃ e : List String,
      (fetchDirectory "d" "t" [issuerA, issuerB] netBFails).issuerInfo[1]? =
        some ⟨issuerB, some [], e⟩ ∧ e ≠ []) ∧
    (fetchDirectory "d" "t" [issuerA, issuerB] netBFails).issuerInfo[0]? =
      (fetchDirectory "d" "t" [issuerA, issuerB] netOk).issuerInfo[0]? := by
  have h := fetchDirectory_isolates_failure "d" "t" [issuerA, issuerB]
    netOk netBFails issuerB
    (fun u hu => by simp [netOk, netBFails, hu]) (by decide)
  exact ⟨by simpa using h.1, (h.2 1 issuerB (by decide)).1 rfl,
    (h.2 0 issuerA (by decide)).2 (by decide)⟩

/-- C5 (refuted by the code, which contradicts its own schema check and its
declared `keys: JWK.Key[]` interface): when the HTTP request succeeds and the
body is well-formed JSON without a `keys` field, the `if (!keySet)` guard
does not fire (the parsed object is truthy), so nothing is caught: the entry
gets `keys = undefined` — not `[]` — and an empty `errors` list. -/
theorem fetchIssuerLogInfo_missing_keys_field :
    (fetchIssuerLogInfo (fun _ => .parsedObj none)
      ⟨"https://example.org", "Ex"⟩).keys = none ∧
    (fetchIssuerLogInfo (fun _ => .parsedObj none)
      ⟨"https://example.org", "Ex"⟩).errors = [] :=
  ⟨rfl, rfl⟩

/-!  ### C6 / C7: diff counts and self-diff  -/

/-- Projection of `audit` with a previous log: `newIssuerCount` is the
`reduce` over the current identifiers. -/
theorem audit_newIssuerCount_some (isTest : Bool) (c p : DirectoryLog) :
    (audit isTest c (some p)).newIssuerCount =
      some (countNotIn (getIssuers isTest c) (getIssuers isTest p)) := rfl

/-- Projection of `audit` with a previous log: `deletedIssuerCount` is the
`reduce` over the previous identifiers. -/
theorem audit_deletedIssuerCount_some (isTest : Bool) (c p : DirectoryLog) :
    (audit isTest c (some p)).deletedIssuerCount =
      some (countNotIn (getIssuers isTest p) (getIssuers isTest c)) := rfl

/-- Projection of `audit` with a previous log: `removedKids` is the nested
scan over the two `IssuerKids` views. -/
theorem audit_removedKids_some (isTest : Bool) (c p : DirectoryLog) :
    (audit isTest c (some p)).removedKids =
      some (computeRemovedKids (getIssuerKids isTest p)
        (getIssuerKids isTest c)) := rfl

/-- The `reduce` of index.ts lines 177-178 counts the members of `xs` that
`ys` does not include. -/
theorem countNotIn_eq_countP (xs ys : List String) :
    countNotIn xs ys = xs.countP fun v => !(ys.contains v) := by
  have h : ∀ (acc : Nat) (l : List String),
      l.foldl (fun acc cur => acc + if ys.contains cur then 0 else 1) acc =
        acc + l.countP (fun v => !(ys.contains v)) := by
    intro acc l
    induction l generalizing acc with
    | nil => simp
    | cons x l ih =>
      rw [List.foldl_cons, ih, List.countP_cons]
      cases hx : ys.contains x with
      | true => simp [hx]
      | false => simp [hx]; omega
  simpa [countNotIn] using h 0 xs

/-- Iterating the identifiers of a log's `IssuerKids` view gives the log's
normalized identifier list. -/
theorem map_iss_getIssuerKids (isTest : Bool) (dir : DirectoryLog) :
    (getIssuerKids isTest dir).map IssuerKids.iss = getIssuers isTest dir := by
  simp [getIssuerKids, getIssuers, List.map_map, Function.comp]

/-- Self-diffing an `IssuerKids` view with duplicate-free identifiers yields
no removed kids: the only matching pairs are an entry with itself, and no kid
of an entry is missing from that same entry. -/
theorem computeRemovedKids_self_eq_nil (K : List IssuerKids)
    (hn : (K.map IssuerKids.iss).Nodup) : computeRemovedKids K K = [] := by
  rw [computeRemovedKids, List.flatMap_eq_nil_iff]
  intro pik hpik
  rw [List.filterMap_eq_nil_iff]
  intro cik hcik
  rw [removedPair]
  by_cases hiss : pik.iss = cik.iss
  · have heq : pik = cik := List.inj_on_of_nodup_map hn hpik hcik hiss
    subst heq
    have hfil : pik.kids.filter (fun kid => !(pik.kids.contains kid)) = [] := by
      rw [List.filter_eq_nil_iff]
      intro a ha
      simpa using ha
    simp [hiss, hfil]
  · simp [hiss]

/-- C6 (as stated, refuted): self-diffing is NOT always empty.  On a snapshot
holding the identifier `"A"` twice with different key sets, the nested scan
pairs the first previous entry with the second current entry (and vice
versa), reporting each entry's kid as removed. -/
theorem audit_self_diff_cex :
    ¬ ((audit false dupIssLog (some dupIssLog)).newIssuerCount = some 0 ∧
       (audit false dupIssLog (some dupIssLog)).deletedIssuerCount = some 0 ∧
       (audit false dupIssLog (some dupIssLog)).removedKids = some []) := by
  decide

/-- C6 (amended): diffing a snapshot against itself always yields
`newIssuerCount = 0` and `deletedIssuerCount = 0`, and also
`removedKids = []` provided the snapshot's normalized issuer identifiers are
duplicate-free; with a duplicated identifier the cross pairs of the nested
scan can report removed kids even on a self-diff. -/
theorem audit_self_diff (isTest : Bool) (s : DirectoryLog) :
    (audit isTest s (some s)).newIssuerCount = some 0 ∧
    (audit isTest s (some s)).deletedIssuerCount = some 0 ∧
    ((getIssuers isTest s).Nodup →
      (audit isTest s (some s)).removedKids = some []) := by
  have hcnt : countNotIn (getIssuers isTest s) (getIssuers isTest s) = 0 := by
    rw [countNotIn_eq_countP, List.countP_eq_zero]
    intro v hv
    simpa using hv
  refine ⟨by rw [audit_newIssuerCount_some, hcnt],
    by rw [audit_deletedIssuerCount_some, hcnt], fun hn => ?_⟩
  rw [audit_removedKids_some, computeRemovedKids_self_eq_nil]
  rwa [map_iss_getIssuerKids]

/-- C6 witness: on a one-issuer snapshot the self-diff is fully empty. -/
theorem audit_self_diff_witness :
    (audit false simpleLog (some simpleLog)).newIssuerCount = some 0 ∧
    (audit false simpleLog (some simpleLog)).deletedIssuerCount = some 0 ∧
    (audit false simpleLog (some simpleLog)).removedKids = some [] := by
  have h := audit_self_diff false simpleLog
  exact ⟨h.1, h.2.1, h.2.2 (by decide)⟩

/-- C7: with a previous snapshot, `newIssuerCount` counts the normalized
identifiers of the current snapshot that the previous one does not include,
and `deletedIssuerCount` counts the previous identifiers the current one does
not include; on current issuers `[A, B]` against previous `[A, C]` both
counts are 1. -/
theorem audit_new_deleted_counts (isTest : Bool) (c p : DirectoryLog) :
    (audit isTest c (some p)).newIssuerCount =
      some ((getIssuers isTest c).countP
        fun v => !((getIssuers isTest p).contains v)) ∧
    (audit isTest c (some p)).deletedIssuerCount =
      some ((getIssuers isTest p).countP
        fun v => !((getIssuers isTest c).contains v)) ∧
    (audit false cntCurLog (some cntPrevLog)).newIssuerCount = some 1 ∧
    (audit false cntCurLog (some cntPrevLog)).deletedIssuerCount = some 1 := by
  refine ⟨?_, ?_, by decide, by decide⟩
  · rw [audit_newIssuerCount_some, countNotIn_eq_countP]
  · rw [audit_deletedIssuerCount_some, countNotIn_eq_countP]

/-!  ### C3 / C9: removedKids  -/

/-- Characterization of one pair comparison: it produces an entry exactly for
a matching identifier with a non-empty previous-minus-current kid set, and
the entry is that identifier with that difference. -/
theorem removedPair_eq_some {pik cik ik : IssuerKids} :
    removedPair pik cik = some ik ↔
      pik.iss = cik.iss ∧
      ik = ⟨pik.iss, pik.kids.filter fun kid => !(cik.kids.contains kid)⟩ ∧
      pik.kids.filter (fun kid => !(cik.kids.contains kid)) ≠ [] := by
  simp only [removedPair]
  split_ifs with h1 h2
  · simp only [Option.some.injEq]
    constructor
    · intro h
      exact ⟨h1, h.symm, List.length_pos.mp h2⟩
    · intro h
      exact h.2.1.symm
  · have hfil : pik.kids.filter (fun kid => !(cik.kids.contains kid)) = [] :=
      List.eq_nil_of_length_eq_zero (Nat.eq_zero_of_not_pos h2)
    simp only [hfil]
    constructor
    · intro h
      exact absurd h (by simp)
    · rintro ⟨-, -, h⟩
      exact absurd rfl h
  · simp [h1]

/-- Membership in the nested scan: an entry is reported iff some
previous-entry/current-entry pair produces it. -/
theorem mem_computeRemovedKids {P C : List IssuerKids} {ik : IssuerKids} :
    ik ∈ computeRemovedKids P C ↔
      ∃ pik ∈ P, ∃ cik ∈ C, removedPair pik cik = some ik := by
  simp [computeRemovedKids, List.mem_flatMap, List.mem_filterMap]

/-- C3: with a previous snapshot, `removedKids` contains the entry
`{iss, previous.kids − current.kids}` for every matching pair of previous and
current entries whose difference is non-empty, and every reported entry arises
that way — in particular its identifier occurs in both snapshots and its kid
list is non-empty, so identifiers occurring in only one snapshot, and
issuers that only gained kids, never appear.  Concretely, previous kids
`["k1","k2"]` against current `["k1"]` reports `{"A", ["k2"]}`, and the
gained-kids direction reports nothing. -/
theorem audit_removedKids_characterization (isTest : Bool)
    (c p : DirectoryLog) :
    ∃ R : List IssuerKids,
      (audit isTest c (some p)).removedKids = some R ∧
      (∀ pik ∈ getIssuerKids isTest p, ∀ cik ∈ getIssuerKids isTest c,
        pik.iss = cik.iss →
        pik.kids.filter (fun kid => !(cik.kids.contains kid)) ≠ [] →
        (⟨pik.iss, pik.kids.filter fun kid => !(cik.kids.contains kid)⟩ :
          IssuerKids) ∈ R) ∧
      (∀ ik ∈ R, ∃ pik ∈ getIssuerKids isTest p,
        ∃ cik ∈ getIssuerKids isTest c,
        pik.iss = ik.iss ∧ cik.iss = ik.iss ∧
        ik.kids = pik.kids.filter (fun kid => !(cik.kids.contains kid)) ∧
        ik.kids ≠ []) ∧
      (audit false remCurLog (some remPrevLog)).removedKids =
        some [⟨"A", ["k2"]⟩] ∧
      (audit false remPrevLog (some remCurLog)).removedKids = some [] := by
  refine ⟨computeRemovedKids (getIssuerKids isTest p) (getIssuerKids isTest c),
    audit_removedKids_some isTest c p, ?_, ?_, by decide, by decide⟩
  · intro pik hpik cik hcik hiss hne
    rw [mem_computeRemovedKids]
    exact ⟨pik, hpik, cik, hcik, removedPair_eq_some.mpr ⟨hiss, rfl, hne⟩⟩
  · intro ik hik
    rw [mem_computeRemovedKids] at hik
    obtain ⟨pik, hpik, cik, hcik, hrp⟩ := hik
    obtain ⟨hiss, hik, hne⟩ := removedPair_eq_some.mp hrp
    subst hik
    exact ⟨pik, hpik, cik, hcik, rfl, hiss.symm, rfl, hne⟩

/-- C3 witness: at the removed-kid scenario the characterization puts
`{"A", ["k2"]}` into the reported list. -/
theorem audit_removedKids_characterization_witness :
    ∃ R : List IssuerKids,
      (audit false remCurLog (some remPrevLog)).removedKids = some R ∧
      (⟨"A", ["k2"]⟩ : IssuerKids) ∈ R := by
  obtain ⟨R, hR, hcomp, -, -, -⟩ :=
    audit_removedKids_characterization false remCurLog remPrevLog
  have h := hcomp ⟨"A", ["k1", "k2"]⟩ (by decide) ⟨"A", ["k1"]⟩ (by decide)
    rfl (by decide)
  exact ⟨R, hR, by simpa using h⟩

/-- The length of a `filterMap` is the number of inputs on which the function
succeeds. -/
theorem length_filterMap_eq_countP {α β : Type} (f : α → Option β)
    (l : List α) :
    (l.filterMap f).length = l.countP fun x => (f x).isSome := by
  induction l with
  | nil => simp
  | cons a l ih =>
    cases h : f a with
    | none => simp [List.filterMap_cons, h, List.countP_cons, ih]
    | some b => simp [List.filterMap_cons, h, List.countP_cons, ih]

/-- The nested scan reports exactly one entry per previous-by-current pair on
which the pair comparison succeeds. -/
theorem length_computeRemovedKids (P C : List IssuerKids) :
    (computeRemovedKids P C).length =
      (P.flatMap fun pik => C.map fun cik => (pik, cik)).countP
        fun pr => (removedPair pr.1 pr.2).isSome := by
  induction P with
  | nil => simp [computeRemovedKids]
  | cons a P ih =>
    simp only [computeRemovedKids, List.flatMap_cons, List.length_append,
      List.countP_append, List.countP_map] at ih ⊢
    rw [length_filterMap_eq_countP, ih]
    rfl

/-- C9: with duplicated identifiers the key-removal comparison runs once per
matching previous-by-current pair: the reported list has one entry per pair
of the cross product on which the comparison succeeds (same normalized
identifier, non-empty previous-minus-current difference).  With `"A"`
occurring twice in each snapshot (m = n = 2), the same removed kid is
reported four times. -/
theorem audit_removedKids_pair_count (isTest : Bool) (c p : DirectoryLog) :
    ∃ R : List IssuerKids,
      (audit isTest c (some p)).removedKids = some R ∧
      R.length =
        ((getIssuerKids isTest p).flatMap fun pik =>
          (getIssuerKids isTest c).map fun cik => (pik, cik)).countP
          (fun pr => (removedPair pr.1 pr.2).isSome) ∧
      (audit false pairCurLog (some pairPrevLog)).removedKids =
        some [⟨"A", ["k1"]⟩, ⟨"A", ["k1"]⟩, ⟨"A", ["k1"]⟩, ⟨"A", ["k1"]⟩] :=
  ⟨_, audit_removedKids_some isTest c p,
    length_computeRemovedKids _ _, by decide⟩
